/-
Verification of maua's style-transfer orchestrator (maua/style/image.py) and
frame-by-frame video upscaler (maua/super/video/frame_by_frame.py).

The Python code is shallowly embedded: tensors become an `Img` record, the
external collaborators (image loading, resampling, histogram matching, the
parameterization / perceptor / optimizer plugin registries, the per-frame
super-resolution model) become fields of an `Externals` / `VideoWorld`
structure that the embedded `transfer` / `upscale` / `vmain` functions are
parametrized over, and the observable side effects of a run (image loading,
EMA updates, progress reports, optimizer steps, video decodes, file writes)
are recorded in an explicit event trace.
-/
import Mathlib

namespace Maua

/-- An image tensor of shape (1, 3, height, width); the pixel payload is
abstracted to a flat list of integers. -/
structure Img where
  height : Nat
  width : Nat
  data : List Int
deriving DecidableEq, Repr

/-- Errors a `transfer` run can surface.  `configurationError` models the
failure raised by the plugin registries on an unknown name (the registries
live outside the excerpted sources; the spec names the error class),
`invalidInput` models undecodable media in `load_images`, and
`unboundLocalError` models Python's UnboundLocalError for a read of a
never-assigned local variable. -/
inductive TErr where
  | configurationError (name : String)
  | invalidInput
  | unboundLocalError (var : String)
deriving DecidableEq, Repr

/-- Observable events of a `transfer` run, in execution order. -/
inductive Event where
  | loadImages
  | resampleContent
  | resampleStyle
  | matchHistogram
  | constructParameterization (seed : Option Img)
  | constructPerceptor
  | getTargetEmbeddings
  | loadOptimizer
  | optStep
  | zeroGrad
  | updateEma
  | backward
  | progressUpdate
deriving DecidableEq, Repr

/-- Number of occurrences of event `e` in trace `t`. -/
def countEvent : List Event → Event → Nat
  | [], _ => 0
  | x :: xs, e => (if x = e then 1 else 0) + countEvent xs e

/-- Modelled from the spec: the Parameterization capability set (§4.3) —
constructible from (height, width, optional seed tensor); `update_ema`
mutates an internal running average from the current state; calling the
parameterization (`decode`) renders the current candidate image;
`decode_average` returns the EMA-smoothed image.  The concrete
parameterization classes are outside the excerpted sources. -/
structure Parameterization (σ : Type) where
  init : Nat → Nat → Option Img → σ
  update_ema : σ → σ
  decode : σ → Img
  decode_average : σ → Img

/-- Modelled from the spec: the Perceptor capability set (§4.3) —
`get_target_embeddings` is a pure function of the content and style images;
`get_loss` scores a candidate image against frozen target embeddings.
The concrete perceptor classes are outside the excerpted sources.
Embeddings are abstracted to `List Int`. -/
structure Perceptor where
  get_target_embeddings : Img → List Img → List Int
  get_loss : Img → List Int → Int

/-- Modelled from the spec: the Optimizer Adapter capability set (§4.3) —
`step` invokes the supplied loss closure `evalsPerStep` times (line-search
optimizers evaluate the closure several times per external step) and then
applies the optimizer's parameter update to the parameterization state.
The concrete optimizer wrappers are outside the excerpted sources. -/
structure OptAdapter (σ : Type) where
  evalsPerStep : Nat
  applyUpdate : σ → σ

/-- State threaded through the optimization loop: the parameterization's
mutable state (`pastiche`) and the event trace accumulated so far. -/
structure LoopState (σ : Type) where
  pastiche : σ
  trace : List Event

/-- The external collaborators `transfer` calls, as abstract functions:
`load_images`, `resample`, `match_histogram`, `tv_loss` (maua.ops) and the
three plugin registries `load_parameterization` / `load_perceptor` /
`load_optimizer` (returning `none` on an unknown name, which the registry
surfaces as a ConfigurationError).  A perceptor factory takes the content
and style strengths; an optimizer factory takes the learning rate and the
requested iteration count and returns the adapter together with the
effective iteration count.  Opaque keyword-argument dictionaries and the
compute device are omitted: they are passed through unchanged in the
source and have no observable effect in this model. -/
structure Externals (σ : Type) where
  load_images : Img → List Img → Option Img → Except TErr (Img × List Img × Option Img)
  resample : Img → Nat → Img
  match_histogram : Img → List Img → String → Img
  tv_loss : Img → Int
  parameterizations : String → Option (Parameterization σ)
  perceptors : String → Option (Int → Int → Perceptor)
  optimizers : String → Option (Int → Nat → OptAdapter σ × Nat)

/-- image.py lines 76-81: the init-tensor selection chain.  The `if/elif`
chain has no final `else`; when no branch assigns, the later read of
`init_tensor` (line 84) raises UnboundLocalError, modelled as an error
value. -/
def initTensor (init_img : Option Img) (init_type : String) (content_img : Img) :
    Except TErr (Option Img) :=
  match init_img with
  | some img => Except.ok (some img)
  | none =>
    if init_type = "content" then Except.ok (some content_img)
    else if init_type = "random" then Except.ok none
    else Except.error (TErr.unboundLocalError "init_tensor")

/-- image.py lines 72-74 applied to the content image: resample to `size`,
then histogram-match against the resampled style images. -/
def preprocessContent (E : Externals σ) (content_img : Img) (style_imgs : List Img)
    (match_hist : String) (size style_scale : Nat) : Img :=
  E.match_histogram (E.resample content_img size)
    (style_imgs.map fun im => E.resample im (size * style_scale)) match_hist

/-- image.py line 73: resample every style image to `size * style_scale`. -/
def preprocessStyles (E : Externals σ) (style_imgs : List Img)
    (size style_scale : Nat) : List Img :=
  style_imgs.map fun im => E.resample im (size * style_scale)

/-- image.py lines 100-112, the loss-evaluation closure:
zero the gradients, update the EMA accumulator, decode the candidate,
score it against the frozen target embeddings, add the total-variation
term when `tv_weight > 0`, backpropagate, advance the progress bar, and
return the scalar loss. -/
def closure (P : Parameterization σ) (perc : Perceptor) (target_embeddings : List Int)
    (tv_weight : Int) (tvl : Img → Int) (s : LoopState σ) : LoopState σ × Int :=
  let s1 : LoopState σ := { s with trace := s.trace ++ [Event.zeroGrad] }
  let s2 : LoopState σ :=
    { pastiche := P.update_ema s1.pastiche, trace := s1.trace ++ [Event.updateEma] }
  let img := P.decode s2.pastiche
  let loss := perc.get_loss img target_embeddings
  let loss := if tv_weight > 0 then loss + tv_weight * tvl img else loss
  let s3 : LoopState σ := { s2 with trace := s2.trace ++ [Event.backward] }
  let s4 : LoopState σ := { s3 with trace := s3.trace ++ [Event.progressUpdate] }
  (s4, loss)

/-- Iterate the loss closure `n` times, threading the loop state. -/
def iterateClosure (cl : LoopState σ → LoopState σ × Int) : Nat → LoopState σ → LoopState σ
  | 0, s => s
  | n + 1, s => iterateClosure cl n (cl s).1

/-- Modelled from the spec: one external optimizer step — evaluate the
closure `evalsPerStep` times, then apply the optimizer's update to the
parameterization state. -/
def OptAdapter.step (opt : OptAdapter σ) (cl : LoopState σ → LoopState σ × Int)
    (s : LoopState σ) : LoopState σ :=
  let s1 := iterateClosure cl opt.evalsPerStep s
  { s1 with pastiche := opt.applyUpdate s1.pastiche }

/-- image.py lines 114-115: `for _ in range(niter): opt.step(closure)`.
Each loop iteration records one external `optStep` event and performs one
adapter step. -/
def runLoop (opt : OptAdapter σ) (cl : LoopState σ → LoopState σ × Int) :
    Nat → LoopState σ → LoopState σ
  | 0, s => s
  | n + 1, s =>
    runLoop opt cl n (opt.step cl { s with trace := s.trace ++ [Event.optStep] })

/-- Outcome of a `transfer` run up to (but not including) the final
`decode_average` on line 117. -/
inductive RunOutcome (σ : Type) where
  | failed (e : TErr) (trace : List Event)
  | finished (P : Parameterization σ) (s : LoopState σ)

/-- image.py lines 70-115 of `transfer`: load the images, resample and
histogram-match, select the init tensor, construct the parameterization
and the perceptor, freeze the target embeddings, construct the optimizer
adapter, then run the closure loop for the effective iteration count.
(Lines 92-94, `del`/`gc.collect`/`empty_cache`, release memory and have no
observable effect here.)  Evaluation order of line 83-85 is kept: the
parameterization registry lookup happens before the `init_tensor` argument
is read, so an unknown parameterization name errors before an unassigned
`init_tensor` does. -/
def transferRun (E : Externals σ)
    (content_img : Img) (style_imgs : List Img) (init_img : Option Img)
    (init_type match_hist : String) (size : Nat)
    (parameterization perceptor optimizer : String) (lr : Int) (n_iters : Nat)
    (content_weight style_weight tv_weight : Int) (style_scale : Nat) :
    RunOutcome σ :=
  match E.load_images content_img style_imgs init_img with
  | Except.error e => RunOutcome.failed e []
  | Except.ok (c0, ss0, ii0) =>
    let t : List Event :=
      [Event.loadImages, Event.resampleContent, Event.resampleStyle, Event.matchHistogram]
    let content1 := preprocessContent E c0 ss0 match_hist size style_scale
    let styles1 := preprocessStyles E ss0 size style_scale
    match E.parameterizations parameterization with
    | none => RunOutcome.failed (TErr.configurationError parameterization) t
    | some P =>
      match initTensor ii0 init_type content1 with
      | Except.error e => RunOutcome.failed e t
      | Except.ok init_tensor =>
        let pastiche := P.init content1.height content1.width init_tensor
        let t := t ++ [Event.constructParameterization init_tensor]
        match E.perceptors perceptor with
        | none => RunOutcome.failed (TErr.configurationError perceptor) t
        | some mkPerc =>
          let perc := mkPerc content_weight style_weight
          let t := t ++ [Event.constructPerceptor]
          let target_embeddings := perc.get_target_embeddings content1 styles1
          let t := t ++ [Event.getTargetEmbeddings]
          match E.optimizers optimizer with
          | none => RunOutcome.failed (TErr.configurationError optimizer) t
          | some mkOpt =>
            let optPair := mkOpt lr n_iters
            let opt := optPair.1
            let niter := optPair.2
            let t := t ++ [Event.loadOptimizer]
            RunOutcome.finished P
              (runLoop opt (closure P perc target_embeddings tv_weight E.tv_loss) niter
                { pastiche := pastiche, trace := t })

/-- image.py `transfer` (lines 70-117): the run above followed by line 117,
`return pastiche.decode_average()`.  Returns the result (or error) paired
with the event trace of the run. -/
def transfer (E : Externals σ)
    (content_img : Img) (style_imgs : List Img) (init_img : Option Img)
    (init_type match_hist : String) (size : Nat)
    (parameterization perceptor optimizer : String) (lr : Int) (n_iters : Nat)
    (content_weight style_weight tv_weight : Int) (style_scale : Nat) :
    Except TErr Img × List Event :=
  match transferRun E content_img style_imgs init_img init_type match_hist size
      parameterization perceptor optimizer lr n_iters
      content_weight style_weight tv_weight style_scale with
  | RunOutcome.failed e t => (Except.error e, t)
  | RunOutcome.finished P s => (Except.ok (P.decode_average s.pastiche), s.trace)

/-! ## Video frame-by-frame upscaler (maua/super/video/frame_by_frame.py) -/

/-- Errors a video run can surface: an unreadable input video, or an index
error reading the first frame of an empty video. -/
inductive VErr where
  | invalidInput
  | indexError
deriving DecidableEq, Repr

/-- Observable events of a video-upscaler run. -/
inductive VEvent where
  | decodeVideo (file : String)
  | writeFile (path : String)
  | skipNotice (file : String)
deriving DecidableEq, Repr

/-- A decoded source video: its average frame rate and its frames in source
order (frame rates are abstracted to integers). -/
structure VideoMeta where
  fps : Int
  frames : List Img
deriving Repr

/-- An output video container as written by `VideoWriter`: its path, its
declared output size (width, height), its frame rate, and the frames
written to it in order. -/
structure WrittenVideo where
  path : String
  width : Nat
  height : Nat
  fps : Int
  frames : List Img
deriving DecidableEq, Repr

/-- External collaborators of the video upscaler: `read` models
`decord.VideoReader` (returning `none` on undecodable input), `pathExists`
models `os.path.exists`, and `model` is the named single-image
super-resolution function — `maua.super.image.upscale` applies it to every
frame independently (modelled from the spec §4.4: that module is outside
the excerpted sources). -/
structure VideoWorld where
  read : String → Option VideoMeta
  pathExists : String → Bool
  model : String → Img → Img

/-- The characters after the last `/` of a path. -/
def afterLastSlash (cs : List Char) : List Char :=
  cs.foldl (fun acc c => if c = '/' then [] else acc ++ [c]) []

/-- A file name without its last extension; a name without a dot, or whose
only dot is leading, is kept whole. -/
def stemOfName (name : List Char) : List Char :=
  let rev := name.reverse
  let ext := rev.takeWhile (fun c => c ≠ '.')
  match rev.drop ext.length with
  | [] => name
  | _ :: before => if before = [] then name else before.reverse

/-- Python's `pathlib.Path(p).stem`: the final path component without its last
extension (Python stdlib, modelled here directly). -/
def stem (p : String) : String :=
  ⟨stemOfName (afterLastSlash p.data)⟩

/-- The deterministic output path
`f"{out_dir}/{Path(video_file).stem}_{model_name}.mp4"` (frame_by_frame.py
lines 20 and 32). -/
def outPath (out_dir video_file model_name : String) : String :=
  out_dir ++ "/" ++ stem video_file ++ "_" ++ model_name ++ ".mp4"

/-- frame_by_frame.py `upscale` (lines 15-26): decode the video, read the
average fps and the first frame's (h, w), open a writer at the
deterministic output path with output size (4*w, 4*h) and the source fps,
and stream every frame in source order through the super-resolution model
into the writer.  (The trailing `return VideoReader(out_file)` re-opens the
written file and is not modelled.) -/
def upscale (W : VideoWorld) (video_file model_name out_dir : String) :
    Except VErr WrittenVideo × List VEvent :=
  match W.read video_file with
  | none => (Except.error VErr.invalidInput, [VEvent.decodeVideo video_file])
  | some vr =>
    match vr.frames with
    | [] => (Except.error VErr.indexError, [VEvent.decodeVideo video_file])
    | f0 :: _ =>
      let out_file := outPath out_dir video_file model_name
      (Except.ok
        { path := out_file, width := 4 * f0.width, height := 4 * f0.height,
          fps := vr.fps, frames := vr.frames.map (W.model model_name) },
        [VEvent.decodeVideo video_file, VEvent.writeFile out_file])

/-- Result of a `main` run of the video upscaler CLI: whether it completed
(an exception from `upscale` aborts the remaining inputs, as in Python),
the event trace, and the output videos written. -/
structure MainResult where
  result : Except VErr Unit
  events : List VEvent
  written : List WrittenVideo

/-- frame_by_frame.py `main` (lines 29-37): for each input video, compute
the deterministic output path; if it already exists, print a skip notice
and continue with the next input; otherwise run `upscale`.  (The on-disk
state is immutable in this model: `pathExists` reflects the state when
`main` starts.) -/
def vmain (W : VideoWorld) (model_name out_dir : String) : List String → MainResult
  | [] => { result := Except.ok (), events := [], written := [] }
  | f :: rest =>
    let out_file := outPath out_dir f model_name
    if W.pathExists out_file then
      let r := vmain W model_name out_dir rest
      { r with events := VEvent.skipNotice f :: r.events }
    else
      match upscale W f model_name out_dir with
      | (Except.error e, evs) => { result := Except.error e, events := evs, written := [] }
      | (Except.ok wv, evs) =>
        let r := vmain W model_name out_dir rest
        { r with events := evs ++ r.events, written := wv :: r.written }

/-! ## Trace algebra -/

/-- The four events one closure invocation appends, in order. -/
def closureEvents : List Event :=
  [Event.zeroGrad, Event.updateEma, Event.backward, Event.progressUpdate]

/-- The concatenation of `n` copies of a list of events. -/
def repeatList : Nat → List Event → List Event
  | 0, _ => []
  | n + 1, l => l ++ repeatList n l

/-- The events one external optimizer step appends when the adapter
evaluates the closure `k` times. -/
def stepEvents (k : Nat) : List Event :=
  Event.optStep :: repeatList k closureEvents

/-- The trace of a run that reached the optimization loop, up to the start
of the loop. -/
def preTrace (seed : Option Img) : List Event :=
  [Event.loadImages, Event.resampleContent, Event.resampleStyle, Event.matchHistogram,
   Event.constructParameterization seed, Event.constructPerceptor,
   Event.getTargetEmbeddings, Event.loadOptimizer]

theorem countEvent_append (a b : List Event) (e : Event) :
    countEvent (a ++ b) e = countEvent a e + countEvent b e := by
  induction a with
  | nil => simp [countEvent]
  | cons x xs ih => simp [countEvent, ih]; omega

theorem countEvent_repeatList (n : Nat) (l : List Event) (e : Event) :
    countEvent (repeatList n l) e = n * countEvent l e := by
  induction n with
  | zero => simp [repeatList, countEvent]
  | succ n ih => simp [repeatList, countEvent_append, ih]; ring

theorem closure_fst_trace (P : Parameterization σ) (perc : Perceptor)
    (tgt : List Int) (tv : Int) (tvl : Img → Int) (s : LoopState σ) :
    ((closure P perc tgt tv tvl s).1).trace = s.trace ++ closureEvents := by
  simp [closure, closureEvents]

theorem iterateClosure_closure_trace (P : Parameterization σ) (perc : Perceptor)
    (tgt : List Int) (tv : Int) (tvl : Img → Int) (n : Nat) (s : LoopState σ) :
    (iterateClosure (closure P perc tgt tv tvl) n s).trace =
      s.trace ++ repeatList n closureEvents := by
  induction n generalizing s with
  | zero => simp [iterateClosure, repeatList]
  | succ n ih =>
    simp [iterateClosure, repeatList, ih, closure_fst_trace]

theorem step_closure_trace (opt : OptAdapter σ) (P : Parameterization σ)
    (perc : Perceptor) (tgt : List Int) (tv : Int) (tvl : Img → Int) (s : LoopState σ) :
    (OptAdapter.step opt (closure P perc tgt tv tvl) s).trace =
      s.trace ++ repeatList opt.evalsPerStep closureEvents := by
  simp [OptAdapter.step, iterateClosure_closure_trace]

theorem runLoop_closure_trace (opt : OptAdapter σ) (P : Parameterization σ)
    (perc : Perceptor) (tgt : List Int) (tv : Int) (tvl : Img → Int)
    (n : Nat) (s : LoopState σ) :
    (runLoop opt (closure P perc tgt tv tvl) n s).trace =
      s.trace ++ repeatList n (stepEvents opt.evalsPerStep) := by
  induction n generalizing s with
  | zero => simp [runLoop, repeatList]
  | succ n ih =>
    simp only [runLoop, ih, step_closure_trace, repeatList, stepEvents]
    simp

/-- A fully configured run (images load, all three plugin names resolve,
the init-tensor chain assigns) reaches the loop: `transferRun` reduces to
`runLoop` over the effective iteration count returned by the optimizer
factory, starting from the seeded parameterization and the pre-loop
trace. -/
theorem transferRun_eq (E : Externals σ)
    (ci : Img) (ss : List Img) (ii : Option Img) (it mh : String) (size : Nat)
    (pn pcn opn : String) (lr : Int) (n_iters : Nat) (cw sw tv : Int) (scale : Nat)
    (c0 : Img) (ss0 : List Img) (ii0 : Option Img) (P : Parameterization σ)
    (seed : Option Img) (mkPerc : Int → Int → Perceptor)
    (mkOpt : Int → Nat → OptAdapter σ × Nat) (opt : OptAdapter σ) (S : Nat)
    (hL : E.load_images ci ss ii = Except.ok (c0, ss0, ii0))
    (hP : E.parameterizations pn = some P)
    (hI : initTensor ii0 it (preprocessContent E c0 ss0 mh size scale) = Except.ok seed)
    (hPc : E.perceptors pcn = some mkPerc)
    (hO : E.optimizers opn = some mkOpt)
    (hMk : mkOpt lr n_iters = (opt, S)) :
    transferRun E ci ss ii it mh size pn pcn opn lr n_iters cw sw tv scale =
      RunOutcome.finished P
        (runLoop opt
          (closure P (mkPerc cw sw)
            ((mkPerc cw sw).get_target_embeddings
              (preprocessContent E c0 ss0 mh size scale)
              (preprocessStyles E ss0 size scale))
            tv E.tv_loss)
          S
          { pastiche :=
              P.init (preprocessContent E c0 ss0 mh size scale).height
                (preprocessContent E c0 ss0 mh size scale).width seed,
            trace := preTrace seed }) := by
  simp only [transferRun, hL, hP, hI, hPc, hO, hMk, preTrace]
  rfl

/-! ## Concrete collaborator instances

Executable instantiations of the external collaborators, used to evaluate
the embedded `transfer` on concrete inputs. -/

/-- A 1×1 image with a single zero pixel. -/
def img0 : Img := ⟨1, 1, [0]⟩

/-- Pointwise `+1` on the pixel payload. -/
def addOne (im : Img) : Img := ⟨im.height, im.width, im.data.map (· + 1)⟩

/-- Pointwise integer average of two payloads (EMA-style blend). -/
def avgImg (a b : Img) : Img :=
  ⟨b.height, b.width, List.zipWith (fun x y => (x + y) / 2) a.data b.data⟩

/-- Modelled from the spec: a concrete pixel ("rgb") parameterization whose
latent state is the image itself paired with its EMA accumulator; `decode`
renders the raw candidate, `decode_average` the accumulator; an absent
seed self-initializes. -/
def rgbParam : Parameterization (Img × Img) where
  init h w seed :=
    match seed with
    | some im => (im, im)
    | none => (⟨h, w, []⟩, ⟨h, w, []⟩)
  update_ema p := (p.1, avgImg p.2 p.1)
  decode p := p.1
  decode_average p := p.2

/-- Modelled from the spec: a concrete perceptor whose target embeddings
are the concatenated payloads and whose loss is the difference of pixel
sums. -/
def testPerceptor : Perceptor where
  get_target_embeddings c ss := c.data ++ (ss.map Img.data).flatten
  get_loss img emb := img.data.sum - emb.sum

/-- Modelled from the spec: a line-search-style adapter that evaluates the
closure twice per external step and then bumps every pixel of the
candidate. -/
def testAdapter : OptAdapter (Img × Img) where
  evalsPerStep := 2
  applyUpdate p := (addOne p.1, p.2)

/-- Concrete external collaborators: identity loading / resampling /
histogram matching, payload length as total-variation loss, and registries
holding one parameterization ("rgb"), one perceptor ("vgg") and one
optimizer ("lbfgs") whose factory halves the requested iteration count
(effective iterations ≠ requested when `n_iters` is odd). -/
def testExternals : Externals (Img × Img) where
  load_images c ss i := Except.ok (c, ss, i)
  resample im _ := im
  match_histogram im _ _ := im
  tv_loss im := (im.data.length : Int)
  parameterizations n := if n = "rgb" then some rgbParam else none
  perceptors n := if n = "vgg" then some (fun _ _ => testPerceptor) else none
  optimizers n := if n = "lbfgs" then some (fun _ k => (testAdapter, k / 2)) else none

/-! ## Event counts of the trace building blocks -/

theorem countEvent_closureEvents_optStep :
    countEvent closureEvents Event.optStep = 0 := by decide

theorem countEvent_closureEvents_updateEma :
    countEvent closureEvents Event.updateEma = 1 := by decide

theorem countEvent_closureEvents_progressUpdate :
    countEvent closureEvents Event.progressUpdate = 1 := by decide

theorem countEvent_closureEvents_getTargetEmbeddings :
    countEvent closureEvents Event.getTargetEmbeddings = 0 := by decide

theorem countEvent_stepEvents_optStep (k : Nat) :
    countEvent (stepEvents k) Event.optStep = 1 := by
  simp [stepEvents, countEvent, countEvent_repeatList, countEvent_closureEvents_optStep]

theorem countEvent_stepEvents_updateEma (k : Nat) :
    countEvent (stepEvents k) Event.updateEma = k := by
  simp [stepEvents, countEvent, countEvent_repeatList, countEvent_closureEvents_updateEma]

theorem countEvent_stepEvents_progressUpdate (k : Nat) :
    countEvent (stepEvents k) Event.progressUpdate = k := by
  simp [stepEvents, countEvent, countEvent_repeatList,
    countEvent_closureEvents_progressUpdate]

theorem countEvent_stepEvents_getTargetEmbeddings (k : Nat) :
    countEvent (stepEvents k) Event.getTargetEmbeddings = 0 := by
  simp [stepEvents, countEvent, countEvent_repeatList,
    countEvent_closureEvents_getTargetEmbeddings]

theorem countEvent_preTrace_optStep (seed : Option Img) :
    countEvent (preTrace seed) Event.optStep = 0 := by
  simp [preTrace, countEvent]

theorem countEvent_preTrace_updateEma (seed : Option Img) :
    countEvent (preTrace seed) Event.updateEma = 0 := by
  simp [preTrace, countEvent]

theorem countEvent_preTrace_progressUpdate (seed : Option Img) :
    countEvent (preTrace seed) Event.progressUpdate = 0 := by
  simp [preTrace, countEvent]

theorem countEvent_preTrace_getTargetEmbeddings (seed : Option Img) :
    countEvent (preTrace seed) Event.getTargetEmbeddings = 1 := by
  simp [preTrace, countEvent]

/-! ## Claim theorems -/

/-- C7: in every closure invocation, the returned loss is the perceptor's
loss on the (EMA-updated state's) decoded candidate against the frozen
target embeddings, plus `tv_weight * tv_loss(candidate)` exactly when
`tv_weight > 0`; when `tv_weight ≤ 0` no total-variation term is added. -/
theorem closure_loss_composition (P : Parameterization σ) (perc : Perceptor)
    (tgt : List Int) (tv_weight : Int) (tvl : Img → Int) (s : LoopState σ) :
    (closure P perc tgt tv_weight tvl s).2 =
      perc.get_loss (P.decode (P.update_ema s.pastiche)) tgt +
        (if tv_weight > 0 then
          tv_weight * tvl (P.decode (P.update_ema s.pastiche)) else 0) := by
  simp only [closure]
  split <;> simp

/-- C2: for every fully configured run, the number of external `opt.step`
invocations equals the effective iteration count `S` returned by the
optimizer-adapter factory — and differs from the requested `n_iters`
whenever `S` does. -/
theorem opt_step_count_eq_effective_iterations (E : Externals σ)
    (ci : Img) (ss : List Img) (ii : Option Img) (it mh : String) (size : Nat)
    (pn pcn opn : String) (lr : Int) (n_iters : Nat) (cw sw tv : Int) (scale : Nat)
    (c0 : Img) (ss0 : List Img) (ii0 : Option Img) (P : Parameterization σ)
    (seed : Option Img) (mkPerc : Int → Int → Perceptor)
    (mkOpt : Int → Nat → OptAdapter σ × Nat) (opt : OptAdapter σ) (S : Nat)
    (hL : E.load_images ci ss ii = Except.ok (c0, ss0, ii0))
    (hP : E.parameterizations pn = some P)
    (hI : initTensor ii0 it (preprocessContent E c0 ss0 mh size scale) = Except.ok seed)
    (hPc : E.perceptors pcn = some mkPerc)
    (hO : E.optimizers opn = some mkOpt)
    (hMk : mkOpt lr n_iters = (opt, S)) :
    countEvent
        (transfer E ci ss ii it mh size pn pcn opn lr n_iters cw sw tv scale).2
        Event.optStep = S ∧
      (S ≠ n_iters →
        countEvent
            (transfer E ci ss ii it mh size pn pcn opn lr n_iters cw sw tv scale).2
            Event.optStep ≠ n_iters) := by
  have h := transferRun_eq E ci ss ii it mh size pn pcn opn lr n_iters cw sw tv scale
    c0 ss0 ii0 P seed mkPerc mkOpt opt S hL hP hI hPc hO hMk
  have hc : countEvent
      (transfer E ci ss ii it mh size pn pcn opn lr n_iters cw sw tv scale).2
      Event.optStep = S := by
    simp only [transfer, h, runLoop_closure_trace, countEvent_append,
      countEvent_repeatList, countEvent_preTrace_optStep, countEvent_stepEvents_optStep]
    omega
  exact ⟨hc, fun hne => by simpa [hc] using hne⟩

/-- Witness for C2: a concrete run requesting 5 iterations whose optimizer
factory returns an effective count of 2 executes exactly 2 external steps,
not 5. -/
theorem opt_step_count_eq_effective_iterations_witness :
    countEvent
        (transfer testExternals img0 [img0] none "content" "avg" 512
          "rgb" "vgg" "lbfgs" 1 5 1 50 100 1).2 Event.optStep = 2 ∧
      countEvent
          (transfer testExternals img0 [img0] none "content" "avg" 512
            "rgb" "vgg" "lbfgs" 1 5 1 50 100 1).2 Event.optStep ≠ 5 := by
  have h := opt_step_count_eq_effective_iterations testExternals img0 [img0] none
    "content" "avg" 512 "rgb" "vgg" "lbfgs" 1 5 1 50 100 1
    img0 [img0] none rgbParam (some img0) (fun _ _ => testPerceptor)
    (fun _ k => (testAdapter, k / 2)) testAdapter 2 rfl rfl rfl rfl rfl rfl
  exact ⟨h.1, h.2 (by decide)⟩

/-- C3: in every fully configured run, `get_target_embeddings` is recorded
exactly once in the whole trace, and the trace splits into a prefix holding
that single computation with no optimizer step yet, and a loop suffix in
which the embeddings are never recomputed. -/
theorem target_embeddings_once_before_loop (E : Externals σ)
    (ci : Img) (ss : List Img) (ii : Option Img) (it mh : String) (size : Nat)
    (pn pcn opn : String) (lr : Int) (n_iters : Nat) (cw sw tv : Int) (scale : Nat)
    (c0 : Img) (ss0 : List Img) (ii0 : Option Img) (P : Parameterization σ)
    (seed : Option Img) (mkPerc : Int → Int → Perceptor)
    (mkOpt : Int → Nat → OptAdapter σ × Nat) (opt : OptAdapter σ) (S : Nat)
    (hL : E.load_images ci ss ii = Except.ok (c0, ss0, ii0))
    (hP : E.parameterizations pn = some P)
    (hI : initTensor ii0 it (preprocessContent E c0 ss0 mh size scale) = Except.ok seed)
    (hPc : E.perceptors pcn = some mkPerc)
    (hO : E.optimizers opn = some mkOpt)
    (hMk : mkOpt lr n_iters = (opt, S)) :
    countEvent
        (transfer E ci ss ii it mh size pn pcn opn lr n_iters cw sw tv scale).2
        Event.getTargetEmbeddings = 1 ∧
      ∃ pre post,
        (transfer E ci ss ii it mh size pn pcn opn lr n_iters cw sw tv scale).2 =
            pre ++ post ∧
          countEvent pre Event.getTargetEmbeddings = 1 ∧
          countEvent pre Event.optStep = 0 ∧
          countEvent post Event.getTargetEmbeddings = 0 := by
  have h := transferRun_eq E ci ss ii it mh size pn pcn opn lr n_iters cw sw tv scale
    c0 ss0 ii0 P seed mkPerc mkOpt opt S hL hP hI hPc hO hMk
  constructor
  · simp only [transfer, h, runLoop_closure_trace, countEvent_append,
      countEvent_repeatList, countEvent_preTrace_getTargetEmbeddings,
      countEvent_stepEvents_getTargetEmbeddings]
    omega
  · refine ⟨preTrace seed, repeatList S (stepEvents opt.evalsPerStep), ?_,
      countEvent_preTrace_getTargetEmbeddings seed,
      countEvent_preTrace_optStep seed, ?_⟩
    · simp only [transfer, h, runLoop_closure_trace]
    · simp [countEvent_repeatList, countEvent_stepEvents_getTargetEmbeddings]

/-- Witness for C3: a concrete multi-step run computes its target
embeddings exactly once. -/
theorem target_embeddings_once_before_loop_witness :
    countEvent
        (transfer testExternals img0 [img0] none "content" "avg" 512
          "rgb" "vgg" "lbfgs" 1 5 1 50 100 1).2 Event.getTargetEmbeddings = 1 :=
  (target_embeddings_once_before_loop testExternals img0 [img0] none
    "content" "avg" 512 "rgb" "vgg" "lbfgs" 1 5 1 50 100 1
    img0 [img0] none rgbParam (some img0) (fun _ _ => testPerceptor)
    (fun _ k => (testAdapter, k / 2)) testAdapter 2 rfl rfl rfl rfl rfl rfl).1

/-- C4: every single closure invocation appends exactly one EMA update and
exactly one progress report to the trace, and consequently a fully
configured run whose adapter evaluates the closure `evalsPerStep` times
per external step over `S` effective steps records
`evalsPerStep * S` EMA updates (and progress reports) in total — not `S`. -/
theorem ema_update_per_closure_and_total (E : Externals σ)
    (ci : Img) (ss : List Img) (ii : Option Img) (it mh : String) (size : Nat)
    (pn pcn opn : String) (lr : Int) (n_iters : Nat) (cw sw tv : Int) (scale : Nat)
    (c0 : Img) (ss0 : List Img) (ii0 : Option Img) (P : Parameterization σ)
    (seed : Option Img) (mkPerc : Int → Int → Perceptor)
    (mkOpt : Int → Nat → OptAdapter σ × Nat) (opt : OptAdapter σ) (S : Nat)
    (hL : E.load_images ci ss ii = Except.ok (c0, ss0, ii0))
    (hP : E.parameterizations pn = some P)
    (hI : initTensor ii0 it (preprocessContent E c0 ss0 mh size scale) = Except.ok seed)
    (hPc : E.perceptors pcn = some mkPerc)
    (hO : E.optimizers opn = some mkOpt)
    (hMk : mkOpt lr n_iters = (opt, S)) :
    (∀ (P' : Parameterization σ) (perc' : Perceptor) (tgt' : List Int)
        (tv' : Int) (tvl' : Img → Int) (s' : LoopState σ),
      countEvent ((closure P' perc' tgt' tv' tvl' s').1).trace Event.updateEma =
          countEvent s'.trace Event.updateEma + 1 ∧
        countEvent ((closure P' perc' tgt' tv' tvl' s').1).trace Event.progressUpdate =
          countEvent s'.trace Event.progressUpdate + 1) ∧
      countEvent
          (transfer E ci ss ii it mh size pn pcn opn lr n_iters cw sw tv scale).2
          Event.updateEma = opt.evalsPerStep * S ∧
      countEvent
          (transfer E ci ss ii it mh size pn pcn opn lr n_iters cw sw tv scale).2
          Event.progressUpdate = opt.evalsPerStep * S := by
  have h := transferRun_eq E ci ss ii it mh size pn pcn opn lr n_iters cw sw tv scale
    c0 ss0 ii0 P seed mkPerc mkOpt opt S hL hP hI hPc hO hMk
  refine ⟨fun P' perc' tgt' tv' tvl' s' => ?_, ?_, ?_⟩
  · rw [closure_fst_trace, countEvent_append, countEvent_append,
      countEvent_closureEvents_updateEma, countEvent_closureEvents_progressUpdate]
    exact ⟨rfl, rfl⟩
  · simp only [transfer, h, runLoop_closure_trace, countEvent_append,
      countEvent_repeatList, countEvent_preTrace_updateEma,
      countEvent_stepEvents_updateEma]
    ring
  · simp only [transfer, h, runLoop_closure_trace, countEvent_append,
      countEvent_repeatList, countEvent_preTrace_progressUpdate,
      countEvent_stepEvents_progressUpdate]
    ring

/-- Witness for C4: the concrete run with 2 closure evaluations per step
and 2 effective steps records 4 EMA updates and 4 progress reports. -/
theorem ema_update_per_closure_and_total_witness :
    countEvent
        (transfer testExternals img0 [img0] none "content" "avg" 512
          "rgb" "vgg" "lbfgs" 1 5 1 50 100 1).2 Event.updateEma = 4 ∧
      countEvent
          (transfer testExternals img0 [img0] none "content" "avg" 512
            "rgb" "vgg" "lbfgs" 1 5 1 50 100 1).2 Event.progressUpdate = 4 := by
  have h := ema_update_per_closure_and_total testExternals img0 [img0] none
    "content" "avg" 512 "rgb" "vgg" "lbfgs" 1 5 1 50 100 1
    img0 [img0] none rgbParam (some img0) (fun _ _ => testPerceptor)
    (fun _ k => (testAdapter, k / 2)) testAdapter 2 rfl rfl rfl rfl rfl rfl
  exact ⟨h.2.1, h.2.2⟩

/-- C5: a run that reaches the loop with the pixel parameterization returns
the EMA-smoothed decode of the final state (`decode_average`), and whenever
the final EMA accumulator differs from the final raw candidate, the
returned image is not the raw candidate's decode. -/
theorem returns_ema_decode_not_raw (E : Externals (Img × Img))
    (ci : Img) (ss : List Img) (ii : Option Img) (it mh : String) (size : Nat)
    (pn pcn opn : String) (lr : Int) (n_iters : Nat) (cw sw tv : Int) (scale : Nat)
    (s : LoopState (Img × Img))
    (hrun : transferRun E ci ss ii it mh size pn pcn opn lr n_iters cw sw tv scale =
      RunOutcome.finished rgbParam s) :
    transfer E ci ss ii it mh size pn pcn opn lr n_iters cw sw tv scale =
        (Except.ok (rgbParam.decode_average s.pastiche), s.trace) ∧
      (s.pastiche.2 ≠ s.pastiche.1 →
        (transfer E ci ss ii it mh size pn pcn opn lr n_iters cw sw tv scale).1 ≠
          Except.ok (rgbParam.decode s.pastiche)) := by
  constructor
  · simp only [transfer, hrun]
  · intro hne hcontra
    simp only [transfer, hrun] at hcontra
    exact hne (by simpa [rgbParam] using hcontra)

/-- Witness for C5: a concrete one-step run ends with raw candidate pixel 1
and EMA accumulator pixel 0; the run returns the EMA image, not the raw
candidate. -/
theorem returns_ema_decode_not_raw_witness :
    (transfer testExternals img0 [img0] none "content" "avg" 512
        "rgb" "vgg" "lbfgs" 1 2 1 50 100 1).1 =
      Except.ok ⟨1, 1, [0]⟩ ∧
    (transfer testExternals img0 [img0] none "content" "avg" 512
        "rgb" "vgg" "lbfgs" 1 2 1 50 100 1).1 ≠
      Except.ok ⟨1, 1, [1]⟩ := by
  have h := returns_ema_decode_not_raw testExternals img0 [img0] none
    "content" "avg" 512 "rgb" "vgg" "lbfgs" 1 2 1 50 100 1
    ⟨(⟨1, 1, [1]⟩, ⟨1, 1, [0]⟩),
     [Event.loadImages, Event.resampleContent, Event.resampleStyle, Event.matchHistogram,
      Event.constructParameterization (some img0), Event.constructPerceptor,
      Event.getTargetEmbeddings, Event.loadOptimizer, Event.optStep,
      Event.zeroGrad, Event.updateEma, Event.backward, Event.progressUpdate,
      Event.zeroGrad, Event.updateEma, Event.backward, Event.progressUpdate]⟩
    rfl
  refine ⟨?_, h.2 (by decide)⟩
  rw [h.1]
  rfl

/-- Whenever the parameterization name resolves and the init-tensor chain
assigns `seed`, the run's trace records the parameterization being
constructed with exactly that seed (whatever happens afterwards). -/
theorem constructParam_mem (E : Externals σ)
    (ci : Img) (ss : List Img) (ii : Option Img) (it mh : String) (size : Nat)
    (pn pcn opn : String) (lr : Int) (n_iters : Nat) (cw sw tv : Int) (scale : Nat)
    (c0 : Img) (ss0 : List Img) (ii0 : Option Img) (P : Parameterization σ)
    (seed : Option Img)
    (hL : E.load_images ci ss ii = Except.ok (c0, ss0, ii0))
    (hP : E.parameterizations pn = some P)
    (hI : initTensor ii0 it (preprocessContent E c0 ss0 mh size scale) = Except.ok seed) :
    Event.constructParameterization seed ∈
      (transfer E ci ss ii it mh size pn pcn opn lr n_iters cw sw tv scale).2 := by
  cases hPc : E.perceptors pcn with
  | none =>
    simp only [transfer, transferRun, hL, hP, hI, hPc]
    simp
  | some mkPerc =>
    cases hO : E.optimizers opn with
    | none =>
      simp only [transfer, transferRun, hL, hP, hI, hPc, hO]
      simp
    | some mkOpt =>
      rcases hMk : mkOpt lr n_iters with ⟨opt, S⟩
      have h := transferRun_eq E ci ss ii it mh size pn pcn opn lr n_iters cw sw tv
        scale c0 ss0 ii0 P seed mkPerc mkOpt opt S hL hP hI hPc hO hMk
      simp only [transfer, h, runLoop_closure_trace]
      simp [preTrace]

/-- C6: initialization precedence of the seed passed to the
parameterization — an explicit init image wins regardless of `init_type`;
otherwise `init_type = "content"` seeds with the resized, histogram-matched
content image; otherwise `init_type = "random"` passes no seed, delegating
self-initialization to the parameterization. -/
theorem init_seed_precedence (E : Externals σ)
    (ci : Img) (ss : List Img) (ii : Option Img) (it mh : String) (size : Nat)
    (pn pcn opn : String) (lr : Int) (n_iters : Nat) (cw sw tv : Int) (scale : Nat)
    (c0 : Img) (ss0 : List Img) (ii0 : Option Img) (P : Parameterization σ)
    (hL : E.load_images ci ss ii = Except.ok (c0, ss0, ii0))
    (hP : E.parameterizations pn = some P) :
    (∀ i : Img, ii0 = some i →
      Event.constructParameterization (some i) ∈
        (transfer E ci ss ii it mh size pn pcn opn lr n_iters cw sw tv scale).2) ∧
    (ii0 = none → it = "content" →
      Event.constructParameterization
          (some (preprocessContent E c0 ss0 mh size scale)) ∈
        (transfer E ci ss ii it mh size pn pcn opn lr n_iters cw sw tv scale).2) ∧
    (ii0 = none → it = "random" →
      Event.constructParameterization none ∈
        (transfer E ci ss ii it mh size pn pcn opn lr n_iters cw sw tv scale).2) := by
  refine ⟨fun i hi => ?_, fun hi hc => ?_, fun hi hr => ?_⟩
  · subst hi
    exact constructParam_mem E ci ss ii it mh size pn pcn opn lr n_iters cw sw tv
      scale c0 ss0 (some i) P (some i) hL hP rfl
  · subst hi; subst hc
    exact constructParam_mem E ci ss ii "content" mh size pn pcn opn lr n_iters
      cw sw tv scale c0 ss0 none P
      (some (preprocessContent E c0 ss0 mh size scale)) hL hP
      (by simp [initTensor])
  · subst hi; subst hr
    exact constructParam_mem E ci ss ii "random" mh size pn pcn opn lr n_iters
      cw sw tv scale c0 ss0 none P none hL hP (by simp [initTensor])

/-- Witness for C6: with an explicit init image supplied together with
`init_type = "random"`, the parameterization is constructed with the
explicit init image as its seed. -/
theorem init_seed_precedence_witness :
    Event.constructParameterization (some ⟨1, 1, [7]⟩) ∈
      (transfer testExternals img0 [img0] (some ⟨1, 1, [7]⟩) "random" "avg" 512
        "rgb" "vgg" "lbfgs" 1 2 1 50 100 1).2 :=
  (init_seed_precedence testExternals img0 [img0] (some ⟨1, 1, [7]⟩) "random"
    "avg" 512 "rgb" "vgg" "lbfgs" 1 2 1 50 100 1
    img0 [img0] (some ⟨1, 1, [7]⟩) rgbParam rfl rfl).1 ⟨1, 1, [7]⟩ rfl

/-- C10: with no init image and an `init_type` that is neither "content"
nor "random", no branch of the chain on lines 76-81 assigns `init_tensor`,
so `transfer` fails with an UnboundLocalError (not a ConfigurationError or
InvalidInput) after preprocessing but before the parameterization is
constructed. -/
theorem missing_init_branch_unbound_local (E : Externals σ)
    (ci : Img) (ss : List Img) (ii : Option Img) (it mh : String) (size : Nat)
    (pn pcn opn : String) (lr : Int) (n_iters : Nat) (cw sw tv : Int) (scale : Nat)
    (c0 : Img) (ss0 : List Img) (P : Parameterization σ)
    (hL : E.load_images ci ss ii = Except.ok (c0, ss0, none))
    (hP : E.parameterizations pn = some P)
    (h1 : it ≠ "content") (h2 : it ≠ "random") :
    transfer E ci ss ii it mh size pn pcn opn lr n_iters cw sw tv scale =
        (Except.error (TErr.unboundLocalError "init_tensor"),
         [Event.loadImages, Event.resampleContent, Event.resampleStyle,
          Event.matchHistogram]) ∧
      ∀ sd, Event.constructParameterization sd ∉
        (transfer E ci ss ii it mh size pn pcn opn lr n_iters cw sw tv scale).2 := by
  have hI : initTensor none it (preprocessContent E c0 ss0 mh size scale) =
      Except.error (TErr.unboundLocalError "init_tensor") := by
    simp [initTensor, h1, h2]
  constructor
  · simp only [transfer, transferRun, hL, hP, hI]
  · intro sd
    simp only [transfer, transferRun, hL, hP, hI]
    simp

/-- Witness for C10: the documented CLI choice `init_type = "init_img"`
with no init image supplied reproduces the unbound-local failure. -/
theorem missing_init_branch_unbound_local_witness :
    transfer testExternals img0 [img0] none "init_img" "avg" 512
        "rgb" "vgg" "lbfgs" 1 2 1 50 100 1 =
      (Except.error (TErr.unboundLocalError "init_tensor"),
       [Event.loadImages, Event.resampleContent, Event.resampleStyle,
        Event.matchHistogram]) ∧
    Event.constructParameterization (some img0) ∉
      (transfer testExternals img0 [img0] none "init_img" "avg" 512
        "rgb" "vgg" "lbfgs" 1 2 1 50 100 1).2 := by
  have h := missing_init_branch_unbound_local testExternals img0 [img0] none
    "init_img" "avg" 512 "rgb" "vgg" "lbfgs" 1 2 1 50 100 1
    img0 [img0] rgbParam rfl rfl (by decide) (by decide)
  exact ⟨h.1, h.2 (some img0)⟩

/-- Counterexample for C1: a run with an unknown parameterization name does
fail with a ConfigurationError, but only after the images have been loaded,
resampled and histogram-matched — the configured-name check does not happen
"before any image is loaded" as claimed. -/
theorem unknown_parameterization_still_loads_images :
    (transfer testExternals img0 [img0] none "content" "avg" 512
        "bogus" "vgg" "lbfgs" 1 2 1 50 100 1).1 =
      Except.error (TErr.configurationError "bogus") ∧
    Event.loadImages ∈
      (transfer testExternals img0 [img0] none "content" "avg" 512
        "bogus" "vgg" "lbfgs" 1 2 1 50 100 1).2 ∧
    Event.resampleContent ∈
      (transfer testExternals img0 [img0] none "content" "avg" 512
        "bogus" "vgg" "lbfgs" 1 2 1 50 100 1).2 ∧
    Event.matchHistogram ∈
      (transfer testExternals img0 [img0] none "content" "avg" 512
        "bogus" "vgg" "lbfgs" 1 2 1 50 100 1).2 := by
  refine ⟨rfl, ?_, ?_, ?_⟩ <;> simp [transfer, transferRun, testExternals]

/-- C1 (amended): an unknown parameterization, perceptor, or optimizer name
makes `transfer` fail with a ConfigurationError before any optimizer step is
executed — but image loading, resampling and histogram matching have already
been performed by then. -/
theorem unknown_plugin_fails_before_any_step (E : Externals σ)
    (ci : Img) (ss : List Img) (ii : Option Img) (it mh : String) (size : Nat)
    (pn pcn opn : String) (lr : Int) (n_iters : Nat) (cw sw tv : Int) (scale : Nat)
    (c0 : Img) (ss0 : List Img) (ii0 : Option Img)
    (hL : E.load_images ci ss ii = Except.ok (c0, ss0, ii0))
    (hcase :
      E.parameterizations pn = none ∨
      (∃ P seed, E.parameterizations pn = some P ∧
        initTensor ii0 it (preprocessContent E c0 ss0 mh size scale) =
          Except.ok seed ∧
        E.perceptors pcn = none) ∨
      (∃ P seed mkPerc, E.parameterizations pn = some P ∧
        initTensor ii0 it (preprocessContent E c0 ss0 mh size scale) =
          Except.ok seed ∧
        E.perceptors pcn = some mkPerc ∧ E.optimizers opn = none)) :
    (∃ nm, (transfer E ci ss ii it mh size pn pcn opn lr n_iters cw sw tv scale).1 =
      Except.error (TErr.configurationError nm)) ∧
    countEvent (transfer E ci ss ii it mh size pn pcn opn lr n_iters
        cw sw tv scale).2 Event.optStep = 0 ∧
    Event.loadImages ∈
      (transfer E ci ss ii it mh size pn pcn opn lr n_iters cw sw tv scale).2 := by
  rcases hcase with hP | ⟨P, seed, hP, hI, hPc⟩ | ⟨P, seed, mkPerc, hP, hI, hPc, hO⟩
  · refine ⟨⟨pn, ?_⟩, ?_, ?_⟩ <;>
      simp [transfer, transferRun, hL, hP, countEvent]
  · refine ⟨⟨pcn, ?_⟩, ?_, ?_⟩ <;>
      simp [transfer, transferRun, hL, hP, hI, hPc, countEvent]
  · refine ⟨⟨opn, ?_⟩, ?_, ?_⟩ <;>
      simp [transfer, transferRun, hL, hP, hI, hPc, hO, countEvent]

/-- Witness for C1 (amended): a run with an unknown optimizer name fails
with a ConfigurationError, executes no optimizer step, and has already
loaded the images. -/
theorem unknown_plugin_fails_before_any_step_witness :
    (transfer testExternals img0 [img0] none "content" "avg" 512
        "rgb" "vgg" "adam" 1 2 1 50 100 1).1 =
      Except.error (TErr.configurationError "adam") ∧
    countEvent (transfer testExternals img0 [img0] none "content" "avg" 512
        "rgb" "vgg" "adam" 1 2 1 50 100 1).2 Event.optStep = 0 ∧
    Event.loadImages ∈
      (transfer testExternals img0 [img0] none "content" "avg" 512
        "rgb" "vgg" "adam" 1 2 1 50 100 1).2 := by
  have h := unknown_plugin_fails_before_any_step testExternals img0 [img0] none
    "content" "avg" 512 "rgb" "vgg" "adam" 1 2 1 50 100 1
    img0 [img0] none rfl
    (Or.inr (Or.inr ⟨rgbParam, some img0, fun _ _ => testPerceptor,
      rfl, rfl, rfl, rfl⟩))
  exact ⟨rfl, h.2.1, h.2.2⟩

/-! ## Video upscaler lemmas -/

/-- Every `upscale` call first decodes its input; it writes at most the one
file at the deterministic output path. -/
theorem upscale_events_shape (W : VideoWorld) (f mn od : String) :
    (upscale W f mn od).2 = [VEvent.decodeVideo f] ∨
      (upscale W f mn od).2 =
        [VEvent.decodeVideo f, VEvent.writeFile (outPath od f mn)] := by
  rcases hr : W.read f with _ | vr
  · left; simp [upscale, hr]
  · rcases hf : vr.frames with _ | ⟨f0, fs0⟩
    · left; simp [upscale, hr, hf]
    · right; simp [upscale, hr, hf]

/-- A successful `upscale` writes its output at the deterministic path. -/
theorem upscale_ok_path (W : VideoWorld) (f mn od : String) (wv : WrittenVideo)
    (evs : List VEvent) (h : upscale W f mn od = (Except.ok wv, evs)) :
    wv.path = outPath od f mn := by
  rcases hr : W.read f with _ | vr
  · simp [upscale, hr] at h
  · rcases hf : vr.frames with _ | ⟨f0, fs0⟩
    · simp [upscale, hr, hf] at h
    · simp [upscale, hr, hf] at h
      rw [← h.1]

/-- Unfolding `vmain` on an input whose output path exists: skip. -/
theorem vmain_cons_skip (W : VideoWorld) (mn od g : String) (rest : List String)
    (hg : W.pathExists (outPath od g mn) = true) :
    vmain W mn od (g :: rest) =
      { vmain W mn od rest with
        events := VEvent.skipNotice g :: (vmain W mn od rest).events } := by
  rw [vmain, if_pos hg]

/-- Unfolding `vmain` on an input whose output path does not exist and
whose `upscale` fails: the run aborts. -/
theorem vmain_cons_err (W : VideoWorld) (mn od g : String) (rest : List String)
    (e : VErr) (evs : List VEvent)
    (hg : W.pathExists (outPath od g mn) = false)
    (hu : upscale W g mn od = (Except.error e, evs)) :
    vmain W mn od (g :: rest) =
      { result := Except.error e, events := evs, written := [] } := by
  rw [vmain, if_neg (by simp [hg]), hu]

/-- Unfolding `vmain` on an input whose output path does not exist and
whose `upscale` succeeds: process it and continue. -/
theorem vmain_cons_ok (W : VideoWorld) (mn od g : String) (rest : List String)
    (wv : WrittenVideo) (evs : List VEvent)
    (hg : W.pathExists (outPath od g mn) = false)
    (hu : upscale W g mn od = (Except.ok wv, evs)) :
    vmain W mn od (g :: rest) =
      { result := (vmain W mn od rest).result,
        events := evs ++ (vmain W mn od rest).events,
        written := wv :: (vmain W mn od rest).written } := by
  rw [vmain, if_neg (by simp [hg]), hu]

/-- Every decode event of a `main` run names an input whose output path did
not exist. -/
theorem vmain_decode_mem (W : VideoWorld) (mn od : String) (fs : List String)
    (x : String) :
    VEvent.decodeVideo x ∈ (vmain W mn od fs).events →
      x ∈ fs ∧ W.pathExists (outPath od x mn) = false := by
  induction fs with
  | nil => intro h; simp [vmain] at h
  | cons g rest ih =>
    intro h
    by_cases hg : W.pathExists (outPath od g mn) = true
    · rw [vmain_cons_skip W mn od g rest hg] at h
      rcases List.mem_cons.mp h with h1 | h2
      · cases h1
      · obtain ⟨hx, hpe⟩ := ih h2
        exact ⟨List.mem_cons_of_mem _ hx, hpe⟩
    · have hg' : W.pathExists (outPath od g mn) = false := by
        simpa using hg
      rcases hu : upscale W g mn od with ⟨res, evs⟩
      have hevs := upscale_events_shape W g mn od
      rw [hu] at hevs
      dsimp only at hevs
      cases res with
      | error e =>
        rw [vmain_cons_err W mn od g rest e evs hg' hu] at h
        dsimp only at h
        have hx : x = g := by
          rcases hevs with hevs | hevs <;> rw [hevs] at h <;> simpa using h
        subst hx
        exact ⟨List.mem_cons_self _ _, hg'⟩
      | ok wv =>
        rw [vmain_cons_ok W mn od g rest wv evs hg' hu] at h
        dsimp only at h
        rcases List.mem_append.mp h with h1 | h2
        · have hx : x = g := by
            rcases hevs with hevs | hevs <;> rw [hevs] at h1 <;> simpa using h1
          subst hx
          exact ⟨List.mem_cons_self _ _, hg'⟩
        · obtain ⟨hx, hpe⟩ := ih h2
          exact ⟨List.mem_cons_of_mem _ hx, hpe⟩

/-- Every output a `main` run writes sits at the deterministic path of one
of the inputs whose output path did not exist. -/
theorem vmain_written_path (W : VideoWorld) (mn od : String) (fs : List String)
    (wv : WrittenVideo) :
    wv ∈ (vmain W mn od fs).written →
      ∃ g, g ∈ fs ∧ wv.path = outPath od g mn ∧
        W.pathExists (outPath od g mn) = false := by
  induction fs with
  | nil => intro h; simp [vmain] at h
  | cons g rest ih =>
    intro h
    by_cases hg : W.pathExists (outPath od g mn) = true
    · rw [vmain_cons_skip W mn od g rest hg] at h
      obtain ⟨x, hx, hp, hpe⟩ := ih h
      exact ⟨x, List.mem_cons_of_mem _ hx, hp, hpe⟩
    · have hg' : W.pathExists (outPath od g mn) = false := by
        simpa using hg
      rcases hu : upscale W g mn od with ⟨res, evs⟩
      cases res with
      | error e =>
        rw [vmain_cons_err W mn od g rest e evs hg' hu] at h
        simp at h
      | ok wv0 =>
        rw [vmain_cons_ok W mn od g rest wv0 evs hg' hu] at h
        dsimp only at h
        rcases List.mem_cons.mp h with h1 | h2
        · refine ⟨g, List.mem_cons_self g rest, ?_, hg'⟩
          rw [h1]
          exact upscale_ok_path W g mn od wv0 evs hu
        · obtain ⟨x, hx, hp, hpe⟩ := ih h2
          exact ⟨x, List.mem_cons_of_mem _ hx, hp, hpe⟩

/-- In a `main` run that completes, every input is reached: a skip notice
is printed when its output path exists, and the input is decoded when it
does not. -/
theorem vmain_reaches (W : VideoWorld) (mn od : String) (fs : List String)
    (f : String) (hok : (vmain W mn od fs).result = Except.ok ())
    (hmem : f ∈ fs) :
    (W.pathExists (outPath od f mn) = true →
      VEvent.skipNotice f ∈ (vmain W mn od fs).events) ∧
    (W.pathExists (outPath od f mn) = false →
      VEvent.decodeVideo f ∈ (vmain W mn od fs).events) := by
  induction fs with
  | nil => cases hmem
  | cons g rest ih =>
    by_cases hg : W.pathExists (outPath od g mn) = true
    · rw [vmain_cons_skip W mn od g rest hg] at hok ⊢
      rcases List.mem_cons.mp hmem with h1 | h2
      · subst h1
        refine ⟨fun _ => List.mem_cons_self _ _, fun hfalse => ?_⟩
        · rw [hg] at hfalse; cases hfalse
      · have hrest := ih hok h2
        exact ⟨fun hp => List.mem_cons_of_mem _ (hrest.1 hp),
          fun hp => List.mem_cons_of_mem _ (hrest.2 hp)⟩
    · have hg' : W.pathExists (outPath od g mn) = false := by simpa using hg
      rcases hu : upscale W g mn od with ⟨res, evs⟩
      have hevs := upscale_events_shape W g mn od
      rw [hu] at hevs
      dsimp only at hevs
      cases res with
      | error e =>
        rw [vmain_cons_err W mn od g rest e evs hg' hu] at hok
        cases hok
      | ok wv =>
        rw [vmain_cons_ok W mn od g rest wv evs hg' hu] at hok ⊢
        dsimp only at hok ⊢
        rcases List.mem_cons.mp hmem with h1 | h2
        · subst h1
          refine ⟨fun htrue => ?_, fun _ => ?_⟩
          · rw [hg'] at htrue; cases htrue
          · refine List.mem_append.mpr (Or.inl ?_)
            rcases hevs with hevs | hevs <;> rw [hevs] <;> simp
        · have hrest := ih hok h2
          exact ⟨fun hp => List.mem_append.mpr (Or.inr (hrest.1 hp)),
            fun hp => List.mem_append.mpr (Or.inr (hrest.2 hp))⟩

/-- Modelled from the spec: concrete video collaborators — every file
decodes to a one-frame 24 fps video, the super-resolution model bumps each
pixel, and exactly the output path `o/skip_m.mp4` already exists on disk. -/
def testVideoWorld : VideoWorld where
  read _ := some ⟨24, [img0]⟩
  pathExists p := p == "o/skip_m.mp4"
  model _ im := addOne im

/-- C8: in a completed `main` run of the video upscaler, an input whose
deterministic output path already exists is skipped entirely — a skip
notice is printed, the input is never decoded, and no written output sits
at its path — while an input whose output path does not exist is decoded
and processed. -/
theorem vmain_skips_existing_outputs (W : VideoWorld) (mn od : String)
    (files : List String) (f : String)
    (hok : (vmain W mn od files).result = Except.ok ())
    (hmem : f ∈ files) :
    (W.pathExists (outPath od f mn) = true →
      VEvent.skipNotice f ∈ (vmain W mn od files).events ∧
      VEvent.decodeVideo f ∉ (vmain W mn od files).events ∧
      ∀ wv ∈ (vmain W mn od files).written, wv.path ≠ outPath od f mn) ∧
    (W.pathExists (outPath od f mn) = false →
      VEvent.decodeVideo f ∈ (vmain W mn od files).events) := by
  refine ⟨fun hp => ⟨(vmain_reaches W mn od files f hok hmem).1 hp, ?_, ?_⟩,
    (vmain_reaches W mn od files f hok hmem).2⟩
  · intro hdec
    have hfalse := (vmain_decode_mem W mn od files f hdec).2
    rw [hp] at hfalse
    cases hfalse
  · intro wv hwv hpath
    obtain ⟨g, _, hgp, hgfalse⟩ := vmain_written_path W mn od files wv hwv
    have hfalse : W.pathExists (outPath od f mn) = false := by
      rw [← hpath, hgp]; exact hgfalse
    rw [hp] at hfalse
    cases hfalse

/-- Witness for C8: with `o/skip_m.mp4` pre-existing, the run over
`[skip.mp4, v.mp4]` skips the first input without decoding it and decodes
the second. -/
theorem vmain_skips_existing_outputs_witness :
    VEvent.skipNotice "skip.mp4" ∈
        (vmain testVideoWorld "m" "o" ["skip.mp4", "v.mp4"]).events ∧
      VEvent.decodeVideo "skip.mp4" ∉
        (vmain testVideoWorld "m" "o" ["skip.mp4", "v.mp4"]).events ∧
      VEvent.decodeVideo "v.mp4" ∈
        (vmain testVideoWorld "m" "o" ["skip.mp4", "v.mp4"]).events := by
  have h1 := vmain_skips_existing_outputs testVideoWorld "m" "o"
    ["skip.mp4", "v.mp4"] "skip.mp4" rfl (by decide)
  have h2 := vmain_skips_existing_outputs testVideoWorld "m" "o"
    ["skip.mp4", "v.mp4"] "v.mp4" rfl (by decide)
  exact ⟨(h1.1 rfl).1, (h1.1 rfl).2.1, h2.2 rfl⟩

/-- C9: on a decodable, nonempty input video, `upscale` writes exactly one
output video at the deterministic path, declared at 4× the first frame's
width and 4× its height, at the source's average frame rate, with the
frames passed through the model in source order. -/
theorem upscale_output_contract (W : VideoWorld) (f mn od : String)
    (vr : VideoMeta) (f0 : Img) (fs0 : List Img)
    (hr : W.read f = some vr) (hf : vr.frames = f0 :: fs0) :
    upscale W f mn od =
      (Except.ok
        { path := outPath od f mn, width := 4 * f0.width,
          height := 4 * f0.height, fps := vr.fps,
          frames := vr.frames.map (W.model mn) },
       [VEvent.decodeVideo f, VEvent.writeFile (outPath od f mn)]) := by
  simp only [upscale, hr, hf]

/-- Witness for C9: upscaling `v.mp4` writes one video at `o/v_m.mp4`,
sized 4×4 from the 1×1 source frame, at 24 fps, with the single frame
mapped through the model. -/
theorem upscale_output_contract_witness :
    upscale testVideoWorld "v.mp4" "m" "o" =
      (Except.ok
        { path := "o/v_m.mp4", width := 4, height := 4, fps := 24,
          frames := [⟨1, 1, [1]⟩] },
       [VEvent.decodeVideo "v.mp4", VEvent.writeFile "o/v_m.mp4"]) := by
  have h := upscale_output_contract testVideoWorld "v.mp4" "m" "o"
    ⟨24, [img0]⟩ img0 [] rfl rfl
  exact h

end Maua
